import Mathlib

/-!
The Telegram logging hook (`telegram.go`).

A shallow embedding of the hook: its constructors, the message formatter
`createMessage`, the delivery function `Fire` and the severity filter `Levels`.

Modelling conventions.

* A Go `string` is the list of its characters (`GoString`).  Every function of the
  hook that inspects a string (`html.EscapeString`, `strings.Join`, `+`) acts on
  single ASCII characters or on whole strings, so nothing depends on the encoding.
* `logrus.Level` is a `uint32`; the severities are the constants `0 .. 6`.
* `logrus.Fields` is a Go map.  `range` visits its entries in an arbitrary order, so
  a record carries its fields as the list of `(key, value)` pairs in the order the
  loop visits them.  Values are of an arbitrary type `V`; the rendering of a value
  under the verb `%+v` is the parameter `defaultFormat`.
* `Fire` talks to the network and to standard error.  The network is the parameter
  `get` (what `http.Client.Get` answers for a client and a URL); the result of
  `Fire` records the returned error, the text written to standard error, the
  requests issued and the responses whose body was closed.
-/

namespace Logging

/-- A Go `string`. -/
abbrev GoString := List Char

/-- The type `logrus.Level` (`uint32`). -/
abbrev Level := Nat

/-- Constant `logrus.PanicLevel`. -/
def PanicLevel : Level := 0
/-- Constant `logrus.FatalLevel`. -/
def FatalLevel : Level := 1
/-- Constant `logrus.ErrorLevel`. -/
def ErrorLevel : Level := 2
/-- Constant `logrus.WarnLevel`. -/
def WarnLevel : Level := 3
/-- Constant `logrus.InfoLevel`. -/
def InfoLevel : Level := 4
/-- Constant `logrus.DebugLevel`. -/
def DebugLevel : Level := 5
/-- Constant `logrus.TraceLevel`. -/
def TraceLevel : Level := 6

/-- The type `time.Duration`: a count of nanoseconds. -/
abbrev Duration := Int

/-- Constant `time.Second`. -/
def Second : Duration := 1000000000

/-- The fields of `net.Dialer` that the hook sets. -/
structure Dialer where
  Timeout : Duration
  KeepAlive : Duration
deriving DecidableEq

/-- The fields of `http.Transport` that the hook sets; `Dial` is the dialer whose
`Dial` method is installed (`none` when the field is left unset). -/
structure Transport where
  Dial : Option Dialer
  TLSHandshakeTimeout : Duration
deriving DecidableEq

/-- The type `http.Client`; `Transport` is `none` for the zero value `http.Client{}`. -/
structure Client where
  Transport : Option Logging.Transport
deriving DecidableEq

/-- A non-nil Go `error`, carried by the text its `Error()` method returns. -/
structure GoError where
  Error : GoString
deriving DecidableEq

/-- An `http.Response`, as far as a caller can tell responses apart here. -/
structure Response where
  StatusCode : Int
deriving DecidableEq

/-- The type `logrus.Entry`, reduced to the members the hook reads. -/
structure Entry (V : Type) where
  Level : Logging.Level
  Message : GoString
  Data : List (GoString × V)

/-- The type `TelegramHook`; `c` is a pointer (`none` is `nil`). -/
structure TelegramHook where
  AppName : GoString
  c : Option Client
  apiEndpoint : GoString
deriving DecidableEq

/-- Function `strings.Join(elems, sep)`. -/
def stringsJoin : List GoString → GoString → GoString
  | [], _ => []
  | [a], _ => a
  | a :: b :: rest, sep => a ++ sep ++ stringsJoin (b :: rest) sep

/-- The replacement `html.EscapeString` makes for one character: the five
characters `&`, apostrophe (code 39), `<`, `>` and the double quote (code 34) become
entities, every other one is kept. -/
def htmlEscapeChar (c : Char) : GoString :=
  if c = '&' then "&amp;".toList
  else if c = Char.ofNat 39 then "&#39;".toList
  else if c = '<' then "&lt;".toList
  else if c = '>' then "&gt;".toList
  else if c = Char.ofNat 34 then "&#34;".toList
  else [c]

/-- Function `html.EscapeString`. -/
def htmlEscapeString : GoString → GoString
  | [] => []
  | c :: cs => htmlEscapeChar c ++ htmlEscapeString cs

/-- Function `NewTelegramHookWithClient`: the hook and the error (`none` is `nil`). -/
def NewTelegramHookWithClient (appName username token chatID : GoString)
    (client : Option Client) : TelegramHook × Option GoError :=
  let apiEndpoint := "https://api.telegram.org/bot".toList ++ username ++ ":".toList ++ token
    ++ "/sendMessage?chat_id=".toList ++ chatID ++ "&text=".toList
  let h : TelegramHook := { AppName := appName, c := client, apiEndpoint := apiEndpoint }
  (h, none)

/-- Function `NewTelegramHook`. -/
def NewTelegramHook (appName userName authToken targetID : GoString) :
    TelegramHook × Option GoError :=
  let client : Client := { Transport := none }
  NewTelegramHookWithClient appName userName authToken targetID (some client)

/-- Method `TelegramHook.createMessage`. -/
def createMessage {V : Type} (defaultFormat : V → GoString) (hook : TelegramHook)
    (entry : Entry V) : GoString :=
  let msg : GoString :=
    if entry.Level = PanicLevel then "PANIC".toList
    else if entry.Level = FatalLevel then "FATAL".toList
    else if entry.Level = ErrorLevel then "ERROR".toList
    else []
  let msg := stringsJoin [msg, hook.AppName] "@".toList
  let msg := stringsJoin [msg, entry.Message] " - ".toList
  if entry.Data.length > 0 then
    let msg := stringsJoin [msg, "<pre>".toList] "\n".toList
    let msg := entry.Data.foldl
      (fun msg kv =>
        stringsJoin
          [msg, htmlEscapeString ("\t".toList ++ kv.1 ++ ": ".toList ++ defaultFormat kv.2)]
          "\n".toList)
      msg
    let msg := stringsJoin [msg, "</pre>".toList] "\n".toList
    msg
  else msg

/-- What one call of `Fire` does: the error it returns (`none` is `nil`), the text
it writes to standard error, the GET requests it issues (client and URL) and the
responses whose body it closes. -/
structure FireResult where
  err : Option GoError
  stderr : GoString
  requests : List (Client × GoString)
  closed : List Response
deriving DecidableEq

/-- Method `TelegramHook.Fire`. -/
def Fire {V : Type} (defaultFormat : V → GoString)
    (get : Client → GoString → Except GoError Response)
    (hook : TelegramHook) (entry : Entry V) : FireResult :=
  let msg := createMessage defaultFormat hook entry
  let ep := hook.apiEndpoint ++ msg
  let t : Transport :=
    { Dial := some { Timeout := 60 * Second, KeepAlive := 30 * Second },
      TLSHandshakeTimeout := 60 * Second }
  let c : Client := { Transport := some t }
  match get c ep with
  | .error err =>
    { err := some err,
      stderr := "Unable to send message, ".toList ++ err.Error,
      requests := [(c, ep)],
      closed := [] }
  | .ok resp =>
    { err := none, stderr := [], requests := [(c, ep)], closed := [resp] }

/-- Method `TelegramHook.Levels`. -/
def Levels (_hook : TelegramHook) : List Level :=
  [ErrorLevel, FatalLevel, PanicLevel]


/-- The label `createMessage` starts from, in the words of the specification:
`PANIC`, `FATAL` or `ERROR` for the three handled severities, empty otherwise. -/
def levelLabel (l : Level) : GoString :=
  match l with
  | 0 => "PANIC".toList
  | 1 => "FATAL".toList
  | 2 => "ERROR".toList
  | _ => []

/-- The header of a message, in the words of the specification:
`<LABEL>@<identity> - <message>`. -/
def header {V : Type} (hook : TelegramHook) (entry : Entry V) : GoString :=
  levelLabel entry.Level ++ "@".toList ++ hook.AppName ++ " - ".toList ++ entry.Message

/-- The text of one field: the second element of the list joined in the loop of
`createMessage`. -/
def fieldLine {V : Type} (defaultFormat : V → GoString) (kv : GoString × V) : GoString :=
  htmlEscapeString ("\t".toList ++ kv.1 ++ ": ".toList ++ defaultFormat kv.2)

/-- The text the loop of `createMessage` appends for a list of fields: for each
field a newline and the field's text. -/
def fieldBlock {V : Type} (defaultFormat : V → GoString) (data : List (GoString × V)) :
    GoString :=
  data.flatMap (fun kv => "\n".toList ++ fieldLine defaultFormat kv)

/-- The number of positions of `s` at which `pat` occurs. -/
def countOcc (pat : GoString) : GoString → Nat
  | [] => if pat = [] then 1 else 0
  | c :: cs => (if pat <+: c :: cs then 1 else 0) + countOcc pat cs

/-- Puts a character in front of the first line of a list of lines. -/
def consLine (c : Char) : List GoString → List GoString
  | [] => [[c]]
  | l :: ls => (c :: l) :: ls

/-- The lines of a string: `strings.Split(s, "\n")`. -/
def splitLines : GoString → List GoString
  | [] => [[]]
  | c :: cs => if c = '\n' then [] :: splitLines cs else consLine c (splitLines cs)

/-- The five entities `html.EscapeString` produces. -/
def htmlEntities : List GoString :=
  ["&lt;".toList, "&gt;".toList, "&amp;".toList, "&#34;".toList, "&#39;".toList]

/-! Auxiliary facts about the embedding. -/

theorem stringsJoin_pair (a b sep : GoString) : stringsJoin [a, b] sep = a ++ sep ++ b := rfl

theorem foldl_join_eq {V : Type} (g : GoString × V → GoString) (data : List (GoString × V))
    (msg : GoString) :
    data.foldl (fun msg kv => stringsJoin [msg, g kv] "\n".toList) msg
      = msg ++ data.flatMap (fun kv => "\n".toList ++ g kv) := by
  induction data generalizing msg with
  | nil => simp
  | cons d ds ih =>
    rw [List.foldl_cons, ih, stringsJoin_pair, List.flatMap_cons]
    simp only [List.append_assoc]

theorem levelLabel_eq (l : Level) :
    (if l = PanicLevel then "PANIC".toList
      else if l = FatalLevel then "FATAL".toList
      else if l = ErrorLevel then "ERROR".toList
      else []) = levelLabel l := by
  match l with
  | 0 => rfl
  | 1 => rfl
  | 2 => rfl
  | n + 3 => simp [levelLabel, PanicLevel, FatalLevel, ErrorLevel]

theorem createMessage_nil {V : Type} (f : V → GoString) (hook : TelegramHook) (entry : Entry V)
    (h : entry.Data = []) : createMessage f hook entry = header hook entry := by
  unfold createMessage
  rw [levelLabel_eq]
  simp only [h, List.length_nil, gt_iff_lt, lt_self_iff_false, if_false, stringsJoin_pair, header]

theorem createMessage_cons {V : Type} (f : V → GoString) (hook : TelegramHook) (entry : Entry V)
    (h : entry.Data ≠ []) :
    createMessage f hook entry
      = header hook entry ++ "\n<pre>".toList ++ fieldBlock f entry.Data ++ "\n</pre>".toList := by
  have hlen : entry.Data.length > 0 := List.length_pos.mpr h
  have hfold := foldl_join_eq (fieldLine f) entry.Data
  unfold createMessage
  rw [levelLabel_eq]
  simp only [hlen, if_true, stringsJoin_pair]
  simp only [fieldLine, stringsJoin_pair] at hfold
  rw [hfold]
  simp only [header, fieldBlock, fieldLine, List.append_assoc]
  rfl

theorem htmlEscapeString_append (a b : GoString) :
    htmlEscapeString (a ++ b) = htmlEscapeString a ++ htmlEscapeString b := by
  induction a with
  | nil => rfl
  | cons c cs ih =>
    rw [List.cons_append, htmlEscapeString, htmlEscapeString, ih, List.append_assoc]

theorem htmlEscapeChar_cases (c : Char) :
    (c = '&' ∧ htmlEscapeChar c = "&amp;".toList) ∨
    (c = Char.ofNat 39 ∧ htmlEscapeChar c = "&#39;".toList) ∨
    (c = '<' ∧ htmlEscapeChar c = "&lt;".toList) ∨
    (c = '>' ∧ htmlEscapeChar c = "&gt;".toList) ∨
    (c = Char.ofNat 34 ∧ htmlEscapeChar c = "&#34;".toList) ∨
    ((c ≠ '&' ∧ c ≠ Char.ofNat 39 ∧ c ≠ '<' ∧ c ≠ '>' ∧ c ≠ Char.ofNat 34) ∧
      htmlEscapeChar c = [c]) := by
  unfold htmlEscapeChar
  by_cases h1 : c = '&'
  · left; exact ⟨h1, by rw [if_pos h1]⟩
  by_cases h2 : c = Char.ofNat 39
  · right; left; exact ⟨h2, by rw [if_neg h1, if_pos h2]⟩
  by_cases h3 : c = '<'
  · right; right; left; exact ⟨h3, by rw [if_neg h1, if_neg h2, if_pos h3]⟩
  by_cases h4 : c = '>'
  · right; right; right; left; exact ⟨h4, by rw [if_neg h1, if_neg h2, if_neg h3, if_pos h4]⟩
  by_cases h5 : c = Char.ofNat 34
  · right; right; right; right; left
    exact ⟨h5, by rw [if_neg h1, if_neg h2, if_neg h3, if_neg h4, if_pos h5]⟩
  · right; right; right; right; right
    exact ⟨⟨h1, h2, h3, h4, h5⟩, by rw [if_neg h1, if_neg h2, if_neg h3, if_neg h4, if_neg h5]⟩

theorem raw_not_mem_htmlEscapeChar (x c : Char)
    (hx : x = '<' ∨ x = '>' ∨ x = Char.ofNat 34 ∨ x = Char.ofNat 39) :
    x ∉ htmlEscapeChar c := by
  rcases htmlEscapeChar_cases c with h | h | h | h | h | h
  all_goals rw [h.2]
  · rcases hx with rfl | rfl | rfl | rfl <;> decide
  · rcases hx with rfl | rfl | rfl | rfl <;> decide
  · rcases hx with rfl | rfl | rfl | rfl <;> decide
  · rcases hx with rfl | rfl | rfl | rfl <;> decide
  · rcases hx with rfl | rfl | rfl | rfl <;> decide
  · obtain ⟨_, h39, hlt, hgt, h34⟩ := h.1
    intro hmem
    rw [List.mem_singleton] at hmem
    rcases hx with rfl | rfl | rfl | rfl
    · exact hlt hmem.symm
    · exact hgt hmem.symm
    · exact h34 hmem.symm
    · exact h39 hmem.symm

theorem raw_not_mem_htmlEscapeString (x : Char)
    (hx : x = '<' ∨ x = '>' ∨ x = Char.ofNat 34 ∨ x = Char.ofNat 39) (s : GoString) :
    x ∉ htmlEscapeString s := by
  induction s with
  | nil => simp [htmlEscapeString]
  | cons c cs ih =>
    rw [htmlEscapeString, List.mem_append]
    exact fun h => h.elim (raw_not_mem_htmlEscapeChar x c hx) ih

theorem newline_mem_htmlEscapeString (s : GoString) :
    '\n' ∈ htmlEscapeString s ↔ '\n' ∈ s := by
  induction s with
  | nil => simp [htmlEscapeString]
  | cons c cs ih =>
    rw [htmlEscapeString, List.mem_append, ih, List.mem_cons]
    have hc : '\n' ∈ htmlEscapeChar c ↔ '\n' = c := by
      rcases htmlEscapeChar_cases c with h | h | h | h | h | h
      · rw [h.2, h.1]; decide
      · rw [h.2, h.1]; decide
      · rw [h.2, h.1]; decide
      · rw [h.2, h.1]; decide
      · rw [h.2, h.1]; decide
      · rw [h.2, List.mem_singleton]
    rw [hc]

theorem head_ne_amp (x : Char) (l : GoString) (hx : x ≠ '&') :
    (x :: l).head? ≠ some '&' := by
  rw [List.head?_cons]
  exact fun h => hx (Option.some.inj h)

theorem amp_starts_entity (s t : GoString) (ht : t <:+ htmlEscapeString s)
    (hamp : t.head? = some '&') : ∃ ent ∈ htmlEntities, ent <+: t := by
  induction s with
  | nil =>
    rw [htmlEscapeString, List.suffix_nil] at ht
    rw [ht] at hamp
    exact absurd hamp (by simp)
  | cons c cs ih =>
    rw [htmlEscapeString] at ht
    rcases htmlEscapeChar_cases c with h | h | h | h | h | h
    · rw [h.2] at ht
      change t <:+ '&' :: 'a' :: 'm' :: 'p' :: ';' :: htmlEscapeString cs at ht
      rcases List.suffix_cons_iff.mp ht with rfl | ht
      · exact ⟨"&amp;".toList, by decide, List.prefix_append _ _⟩
      rcases List.suffix_cons_iff.mp ht with rfl | ht
      · exact absurd hamp (head_ne_amp _ _ (by decide))
      rcases List.suffix_cons_iff.mp ht with rfl | ht
      · exact absurd hamp (head_ne_amp _ _ (by decide))
      rcases List.suffix_cons_iff.mp ht with rfl | ht
      · exact absurd hamp (head_ne_amp _ _ (by decide))
      rcases List.suffix_cons_iff.mp ht with rfl | ht
      · exact absurd hamp (head_ne_amp _ _ (by decide))
      exact ih ht
    · rw [h.2] at ht
      change t <:+ '&' :: '#' :: '3' :: '9' :: ';' :: htmlEscapeString cs at ht
      rcases List.suffix_cons_iff.mp ht with rfl | ht
      · exact ⟨"&#39;".toList, by decide, List.prefix_append _ _⟩
      rcases List.suffix_cons_iff.mp ht with rfl | ht
      · exact absurd hamp (head_ne_amp _ _ (by decide))
      rcases List.suffix_cons_iff.mp ht with rfl | ht
      · exact absurd hamp (head_ne_amp _ _ (by decide))
      rcases List.suffix_cons_iff.mp ht with rfl | ht
      · exact absurd hamp (head_ne_amp _ _ (by decide))
      rcases List.suffix_cons_iff.mp ht with rfl | ht
      · exact absurd hamp (head_ne_amp _ _ (by decide))
      exact ih ht
    · rw [h.2] at ht
      change t <:+ '&' :: 'l' :: 't' :: ';' :: htmlEscapeString cs at ht
      rcases List.suffix_cons_iff.mp ht with rfl | ht
      · exact ⟨"&lt;".toList, by decide, List.prefix_append _ _⟩
      rcases List.suffix_cons_iff.mp ht with rfl | ht
      · exact absurd hamp (head_ne_amp _ _ (by decide))
      rcases List.suffix_cons_iff.mp ht with rfl | ht
      · exact absurd hamp (head_ne_amp _ _ (by decide))
      rcases List.suffix_cons_iff.mp ht with rfl | ht
      · exact absurd hamp (head_ne_amp _ _ (by decide))
      exact ih ht
    · rw [h.2] at ht
      change t <:+ '&' :: 'g' :: 't' :: ';' :: htmlEscapeString cs at ht
      rcases List.suffix_cons_iff.mp ht with rfl | ht
      · exact ⟨"&gt;".toList, by decide, List.prefix_append _ _⟩
      rcases List.suffix_cons_iff.mp ht with rfl | ht
      · exact absurd hamp (head_ne_amp _ _ (by decide))
      rcases List.suffix_cons_iff.mp ht with rfl | ht
      · exact absurd hamp (head_ne_amp _ _ (by decide))
      rcases List.suffix_cons_iff.mp ht with rfl | ht
      · exact absurd hamp (head_ne_amp _ _ (by decide))
      exact ih ht
    · rw [h.2] at ht
      change t <:+ '&' :: '#' :: '3' :: '4' :: ';' :: htmlEscapeString cs at ht
      rcases List.suffix_cons_iff.mp ht with rfl | ht
      · exact ⟨"&#34;".toList, by decide, List.prefix_append _ _⟩
      rcases List.suffix_cons_iff.mp ht with rfl | ht
      · exact absurd hamp (head_ne_amp _ _ (by decide))
      rcases List.suffix_cons_iff.mp ht with rfl | ht
      · exact absurd hamp (head_ne_amp _ _ (by decide))
      rcases List.suffix_cons_iff.mp ht with rfl | ht
      · exact absurd hamp (head_ne_amp _ _ (by decide))
      rcases List.suffix_cons_iff.mp ht with rfl | ht
      · exact absurd hamp (head_ne_amp _ _ (by decide))
      exact ih ht
    · rw [h.2] at ht
      change t <:+ c :: htmlEscapeString cs at ht
      rcases List.suffix_cons_iff.mp ht with rfl | ht
      · rw [List.head?_cons, Option.some.injEq] at hamp
        exact absurd hamp h.1.1
      exact ih ht

theorem isPrefix_append_sep (c : Char) (pat a b : GoString) (hc : c ∉ pat) :
    pat <+: a ++ c :: b ↔ pat <+: a := by
  induction a generalizing pat with
  | nil =>
    cases pat with
    | nil => simp
    | cons p ps =>
      rw [List.nil_append, List.cons_prefix_cons, List.prefix_nil]
      constructor
      · intro h
        exact absurd (List.mem_cons.mpr (Or.inl h.1.symm)) hc
      · intro h
        exact absurd h (List.cons_ne_nil _ _)
  | cons x xs ih =>
    cases pat with
    | nil => simp
    | cons p ps =>
      rw [List.cons_append, List.cons_prefix_cons, List.cons_prefix_cons,
        ih ps (fun h => hc (List.mem_cons_of_mem _ h))]

theorem countOcc_append_sep (c : Char) (pat a b : GoString) (hne : pat ≠ []) (hc : c ∉ pat) :
    countOcc pat (a ++ c :: b) = countOcc pat a + countOcc pat b := by
  induction a with
  | nil =>
    have h := (isPrefix_append_sep c pat [] b hc).not.mpr (by rw [List.prefix_nil]; exact hne)
    rw [List.nil_append] at h
    simp only [List.nil_append, countOcc, if_neg h, if_neg hne]
  | cons x xs ih =>
    have h := isPrefix_append_sep c pat (x :: xs) b hc
    rw [List.cons_append] at h
    show (if pat <+: x :: (xs ++ c :: b) then 1 else 0) + countOcc pat (xs ++ c :: b)
      = ((if pat <+: x :: xs then 1 else 0) + countOcc pat xs) + countOcc pat b
    rw [ih]
    by_cases hp : pat <+: x :: xs
    · rw [if_pos hp, if_pos (h.mpr hp)]; omega
    · rw [if_neg hp, if_neg (fun h2 => hp (h.mp h2))]; omega

theorem countOcc_eq_zero (p : Char) (ps s : GoString) (hp : p ∉ s) :
    countOcc (p :: ps) s = 0 := by
  induction s with
  | nil => rw [countOcc, if_neg (List.cons_ne_nil _ _)]
  | cons x xs ih =>
    have hx : ¬ (p :: ps <+: x :: xs) := by
      rw [List.cons_prefix_cons]
      exact fun h => hp (List.mem_cons.mpr (Or.inl h.1))
    rw [countOcc, if_neg hx, ih (fun h => hp (List.mem_cons_of_mem _ h))]

theorem countOcc_pos_iff (pat s : GoString) : 0 < countOcc pat s ↔ pat <:+: s := by
  induction s with
  | nil =>
    rw [countOcc, List.infix_nil]
    by_cases h : pat = []
    · simp [h]
    · simp [h]
  | cons x xs ih =>
    rw [countOcc, List.infix_cons_iff, ← ih]
    by_cases h : pat <+: x :: xs
    · simp [h]
    · simp [h]

theorem splitLines_ne_nil (s : GoString) : splitLines s ≠ [] := by
  cases s with
  | nil => simp [splitLines]
  | cons c cs =>
    rw [splitLines]
    by_cases h : c = '\n'
    · rw [if_pos h]; exact List.cons_ne_nil _ _
    · rw [if_neg h]
      cases splitLines cs <;> simp [consLine]

theorem consLine_append (c : Char) (l m : List GoString) (h : l ≠ []) :
    consLine c (l ++ m) = consLine c l ++ m := by
  cases l with
  | nil => exact absurd rfl h
  | cons x xs => rfl

theorem splitLines_append_newline (a b : GoString) :
    splitLines (a ++ '\n' :: b) = splitLines a ++ splitLines b := by
  induction a with
  | nil => simp only [List.nil_append, splitLines, if_true]; rfl
  | cons x xs ih =>
    show (if x = '\n' then [] :: splitLines (xs ++ '\n' :: b)
        else consLine x (splitLines (xs ++ '\n' :: b)))
      = (if x = '\n' then [] :: splitLines xs else consLine x (splitLines xs)) ++ splitLines b
    rw [ih]
    by_cases h : x = '\n'
    · rw [if_pos h, if_pos h]; rfl
    · rw [if_neg h, if_neg h, consLine_append _ _ _ (splitLines_ne_nil xs)]

theorem splitLines_of_no_newline (s : GoString) (h : '\n' ∉ s) : splitLines s = [s] := by
  induction s with
  | nil => rfl
  | cons x xs ih =>
    have hx : x ≠ '\n' := fun e => h (List.mem_cons.mpr (Or.inl e.symm))
    rw [splitLines, if_neg hx, ih (fun e => h (List.mem_cons_of_mem _ e))]
    rfl

theorem lt_not_mem_levelLabel (l : Level) : '<' ∉ levelLabel l := by
  match l with
  | 0 => decide
  | 1 => decide
  | 2 => decide
  | n + 3 => simp [levelLabel]

theorem countOcc_header {V : Type} (hook : TelegramHook) (entry : Entry V) (ps : GoString)
    (hat : '@' ∉ ps) (hsp : ' ' ∉ ps) :
    countOcc ('<' :: ps) (header hook entry)
      = countOcc ('<' :: ps) hook.AppName + countOcc ('<' :: ps) entry.Message := by
  have hne : ('<' :: ps) ≠ [] := List.cons_ne_nil _ _
  have hat2 : '@' ∉ '<' :: ps := by
    rw [List.mem_cons]; exact fun h => h.elim (by decide) hat
  have hsp2 : ' ' ∉ '<' :: ps := by
    rw [List.mem_cons]; exact fun h => h.elim (by decide) hsp
  have e : header hook entry
      = levelLabel entry.Level ++ '@' :: (hook.AppName ++ ' ' :: (['-'] ++ ' ' :: entry.Message)) := by
    simp only [header, List.append_assoc]; rfl
  rw [e, countOcc_append_sep _ _ _ _ hne hat2, countOcc_append_sep _ _ _ _ hne hsp2,
    countOcc_append_sep _ _ _ _ hne hsp2, countOcc_eq_zero _ _ _ (lt_not_mem_levelLabel _),
    countOcc_eq_zero '<' ps ['-'] (by decide)]
  omega

theorem lt_not_mem_fieldBlock {V : Type} (f : V → GoString) (data : List (GoString × V)) :
    '<' ∉ fieldBlock f data := by
  intro h
  rw [fieldBlock, List.mem_flatMap] at h
  obtain ⟨kv, _, hkv⟩ := h
  rw [List.mem_append] at hkv
  rcases hkv with hkv | hkv
  · exact absurd hkv (by decide)
  · exact raw_not_mem_htmlEscapeString '<' (Or.inl rfl) _ hkv

theorem countOcc_cons (pat : GoString) (c : Char) (cs : GoString) :
    countOcc pat (c :: cs) = (if pat <+: c :: cs then 1 else 0) + countOcc pat cs := rfl

theorem countOcc_open_block (X : GoString) (hX : '<' ∉ X) :
    countOcc "<pre>".toList ("<pre>".toList ++ X) = 1 ∧
    countOcc "</pre>".toList ("<pre>".toList ++ X) = 0 := by
  constructor
  · show countOcc ['<', 'p', 'r', 'e', '>'] ('<' :: 'p' :: 'r' :: 'e' :: '>' :: X) = 1
    rw [countOcc_cons, countOcc_cons, countOcc_cons, countOcc_cons, countOcc_cons,
      countOcc_eq_zero _ _ _ hX]
    simp [List.cons_prefix_cons]
  · show countOcc ['<', '/', 'p', 'r', 'e', '>'] ('<' :: 'p' :: 'r' :: 'e' :: '>' :: X) = 0
    rw [countOcc_cons, countOcc_cons, countOcc_cons, countOcc_cons, countOcc_cons,
      countOcc_eq_zero _ _ _ hX]
    simp [List.cons_prefix_cons]

theorem countOcc_createMessage {V : Type} (f : V → GoString) (hook : TelegramHook)
    (entry : Entry V) (h : entry.Data ≠ []) :
    countOcc "<pre>".toList (createMessage f hook entry)
      = countOcc "<pre>".toList hook.AppName + countOcc "<pre>".toList entry.Message + 1 ∧
    countOcc "</pre>".toList (createMessage f hook entry)
      = countOcc "</pre>".toList hook.AppName + countOcc "</pre>".toList entry.Message + 1 := by
  have e : createMessage f hook entry
      = header hook entry ++ '\n' :: (("<pre>".toList ++ fieldBlock f entry.Data)
          ++ '\n' :: "</pre>".toList) := by
    rw [createMessage_cons f hook entry h]
    simp only [List.append_assoc]
    rfl
  have hb := countOcc_open_block _ (lt_not_mem_fieldBlock f entry.Data)
  have h1 := countOcc_header hook entry "pre>".toList (by decide) (by decide)
  have h2 := countOcc_header hook entry "/pre>".toList (by decide) (by decide)
  constructor
  · rw [e, countOcc_append_sep _ _ _ _ (by decide) (by decide),
      countOcc_append_sep _ _ _ _ (by decide) (by decide), hb.1]
    have h3 : countOcc "<pre>".toList "</pre>".toList = 0 := by decide
    rw [h3]
    change countOcc ('<' :: "pre>".toList) _ + _ = _
    rw [h1]
    rfl
  · rw [e, countOcc_append_sep _ _ _ _ (by decide) (by decide),
      countOcc_append_sep _ _ _ _ (by decide) (by decide), hb.2]
    have h3 : countOcc "</pre>".toList "</pre>".toList = 1 := by decide
    rw [h3]
    change countOcc ('<' :: "/pre>".toList) _ + _ = _
    rw [h2]
    rfl

theorem splitLines_block {V : Type} (f : V → GoString) (data : List (GoString × V))
    (pre post : GoString) :
    splitLines (pre ++ fieldBlock f data ++ '\n' :: post)
      = splitLines pre ++ data.flatMap (fun kv => splitLines (fieldLine f kv))
          ++ splitLines post := by
  induction data generalizing pre with
  | nil =>
    simp only [fieldBlock, List.flatMap_nil, List.append_nil]
    exact splitLines_append_newline pre post
  | cons d ds ih =>
    have e : pre ++ fieldBlock f (d :: ds) ++ '\n' :: post
        = pre ++ '\n' :: (fieldLine f d ++ fieldBlock f ds ++ '\n' :: post) := by
      simp only [fieldBlock, List.flatMap_cons, List.append_assoc]
      rfl
    rw [e, splitLines_append_newline, ih, List.flatMap_cons]
    simp only [List.append_assoc]

theorem splitLines_createMessage {V : Type} (f : V → GoString) (hook : TelegramHook)
    (entry : Entry V) (h : entry.Data ≠ []) :
    splitLines (createMessage f hook entry)
      = splitLines (header hook entry) ++ ["<pre>".toList]
          ++ entry.Data.flatMap (fun kv => splitLines (fieldLine f kv)) ++ ["</pre>".toList] := by
  have e : createMessage f hook entry
      = header hook entry ++ '\n' :: ("<pre>".toList ++ fieldBlock f entry.Data
          ++ '\n' :: "</pre>".toList) := by
    rw [createMessage_cons f hook entry h]
    simp only [List.append_assoc]
    rfl
  rw [e, splitLines_append_newline, splitLines_block]
  simp only [List.append_assoc]
  rfl

theorem createMessage_begins_with_header {V : Type} (f : V → GoString) (hook : TelegramHook) (entry : Entry V) :
    header hook entry <+: createMessage f hook entry := by
  by_cases h : entry.Data = []
  · rw [createMessage_nil f hook entry h]
  · rw [createMessage_cons f hook entry h, List.append_assoc, List.append_assoc]
    exact List.prefix_append _ _

theorem newline_mem_fieldLine {V : Type} (f : V → GoString) (kv : GoString × V) :
    '\n' ∈ fieldLine f kv ↔ '\n' ∈ kv.1 ∨ '\n' ∈ f kv.2 := by
  rw [fieldLine, newline_mem_htmlEscapeString]
  simp only [List.mem_append]
  constructor
  · rintro (((h | h) | h) | h)
    · exact absurd h (by decide)
    · exact Or.inl h
    · exact absurd h (by decide)
    · exact Or.inr h
  · rintro (h | h)
    · exact Or.inl (Or.inl (Or.inr h))
    · exact Or.inr h

theorem flatMap_splitLines_fieldLine {V : Type} (f : V → GoString) (data : List (GoString × V))
    (h : ∀ kv ∈ data, '\n' ∉ kv.1 ∧ '\n' ∉ f kv.2) :
    data.flatMap (fun kv => splitLines (fieldLine f kv)) = data.map (fieldLine f) := by
  induction data with
  | nil => rfl
  | cons d ds ih =>
    have hd := h d (List.mem_cons_self _ _)
    have hline : '\n' ∉ fieldLine f d := by
      rw [newline_mem_fieldLine]
      exact fun e => e.elim hd.1 hd.2
    rw [List.flatMap_cons, List.map_cons, splitLines_of_no_newline _ hline,
      ih (fun kv hkv => h kv (List.mem_cons_of_mem _ hkv))]
    rfl

/-! The claims of the specification. -/

/-- C1: for every severity, application name, message text and field list, the
string `createMessage` returns (it is a total function) begins with the label, `@`,
the application name, ` - ` and the message text, where the label is `PANIC`,
`FATAL` or `ERROR` for the severities panic, fatal and error and is empty for every
other severity. -/
theorem createMessage_header {V : Type} (f : V → GoString) (hook : TelegramHook)
    (entry : Entry V) :
    (entry.Level = PanicLevel →
      "PANIC".toList ++ "@".toList ++ hook.AppName ++ " - ".toList ++ entry.Message
        <+: createMessage f hook entry) ∧
    (entry.Level = FatalLevel →
      "FATAL".toList ++ "@".toList ++ hook.AppName ++ " - ".toList ++ entry.Message
        <+: createMessage f hook entry) ∧
    (entry.Level = ErrorLevel →
      "ERROR".toList ++ "@".toList ++ hook.AppName ++ " - ".toList ++ entry.Message
        <+: createMessage f hook entry) ∧
    (entry.Level ≠ PanicLevel → entry.Level ≠ FatalLevel → entry.Level ≠ ErrorLevel →
      "@".toList ++ hook.AppName ++ " - ".toList ++ entry.Message
        <+: createMessage f hook entry) := by
  have hp := createMessage_begins_with_header f hook entry
  unfold header at hp
  refine ⟨fun h => ?_, fun h => ?_, fun h => ?_, fun h1 h2 h3 => ?_⟩
  · rw [h] at hp; exact hp
  · rw [h] at hp; exact hp
  · rw [h] at hp; exact hp
  · rw [← levelLabel_eq, if_neg h1, if_neg h2, if_neg h3] at hp
    exact hp

/-- Witness of C1: one record per branch of the severity switch. -/
theorem createMessage_header_witness :
    ("PANIC".toList ++ "@".toList ++ "svc".toList ++ " - ".toList ++ "boom".toList
      <+: createMessage (fun v : GoString => v) ⟨"svc".toList, none, []⟩
            ⟨PanicLevel, "boom".toList, []⟩) ∧
    ("FATAL".toList ++ "@".toList ++ "svc".toList ++ " - ".toList ++ "boom".toList
      <+: createMessage (fun v : GoString => v) ⟨"svc".toList, none, []⟩
            ⟨FatalLevel, "boom".toList, []⟩) ∧
    ("ERROR".toList ++ "@".toList ++ "svc".toList ++ " - ".toList ++ "disk full".toList
      <+: createMessage (fun v : GoString => v) ⟨"svc".toList, none, []⟩
            ⟨ErrorLevel, "disk full".toList, [("path".toList, "/data".toList)]⟩) ∧
    ("@".toList ++ "svc".toList ++ " - ".toList ++ "slow".toList
      <+: createMessage (fun v : GoString => v) ⟨"svc".toList, none, []⟩
            ⟨WarnLevel, "slow".toList, []⟩) :=
  ⟨(createMessage_header (fun v : GoString => v) ⟨"svc".toList, none, []⟩
      ⟨PanicLevel, "boom".toList, []⟩).1 rfl,
   (createMessage_header (fun v : GoString => v) ⟨"svc".toList, none, []⟩
      ⟨FatalLevel, "boom".toList, []⟩).2.1 rfl,
   (createMessage_header (fun v : GoString => v) ⟨"svc".toList, none, []⟩
      ⟨ErrorLevel, "disk full".toList, [("path".toList, "/data".toList)]⟩).2.2.1 rfl,
   (createMessage_header (fun v : GoString => v) ⟨"svc".toList, none, []⟩
      ⟨WarnLevel, "slow".toList, []⟩).2.2.2 (by decide) (by decide) (by decide)⟩

/-- C2, as stated, fails: with the message text `<pre>` and the single field
`k = "a\nb"` the output holds `<pre>` twice, and two lines stand between the marker
lines although the record has one field. -/
theorem message_text_repeats_pre_marker :
    (([("k".toList, "a\nb".toList)] : List (GoString × GoString)).length = 1) ∧
    countOcc "<pre>".toList
      (createMessage (fun v : GoString => v) ⟨"svc".toList, none, []⟩
        ⟨ErrorLevel, "<pre>".toList, [("k".toList, "a\nb".toList)]⟩) = 2 ∧
    splitLines
      (createMessage (fun v : GoString => v) ⟨"svc".toList, none, []⟩
        ⟨ErrorLevel, "<pre>".toList, [("k".toList, "a\nb".toList)]⟩)
      = ["ERROR@svc - <pre>".toList, "<pre>".toList, "\tk: a".toList, "b".toList,
          "</pre>".toList] := by
  decide

/-- C2, amended: for every record with at least one field, `createMessage` returns
the header, the line `<pre>`, for each field in iteration order a newline and the
field's escaped text, and the final line `</pre>`.  Each of `<pre>` and `</pre>`
occurs in it once more than in the application name and the message text together.
Split at newlines, the output is the lines of the header, then `<pre>`, then the
lines of each field's text, then `</pre>`; when no key and no formatted value holds
a newline, the lines between the markers are exactly one per field. -/
theorem createMessage_pre_block {V : Type} (f : V → GoString) (hook : TelegramHook)
    (entry : Entry V) (h : entry.Data ≠ []) :
    createMessage f hook entry
      = header hook entry ++ "\n".toList ++ "<pre>".toList ++ fieldBlock f entry.Data
          ++ "\n".toList ++ "</pre>".toList ∧
    countOcc "<pre>".toList (createMessage f hook entry)
      = countOcc "<pre>".toList hook.AppName + countOcc "<pre>".toList entry.Message + 1 ∧
    countOcc "</pre>".toList (createMessage f hook entry)
      = countOcc "</pre>".toList hook.AppName + countOcc "</pre>".toList entry.Message + 1 ∧
    splitLines (createMessage f hook entry)
      = splitLines (header hook entry) ++ ["<pre>".toList]
          ++ entry.Data.flatMap (fun kv => splitLines (fieldLine f kv)) ++ ["</pre>".toList] ∧
    ((∀ kv ∈ entry.Data, '\n' ∉ kv.1 ∧ '\n' ∉ f kv.2) →
      splitLines (createMessage f hook entry)
        = splitLines (header hook entry) ++ ["<pre>".toList]
            ++ entry.Data.map (fieldLine f) ++ ["</pre>".toList] ∧
      (entry.Data.map (fieldLine f)).length = entry.Data.length) := by
  refine ⟨?_, (countOcc_createMessage f hook entry h).1, (countOcc_createMessage f hook entry h).2,
    splitLines_createMessage f hook entry h, fun hn => ⟨?_, List.length_map _ _⟩⟩
  · rw [createMessage_cons f hook entry h]
    simp only [List.append_assoc]
    rfl
  · rw [splitLines_createMessage f hook entry h, flatMap_splitLines_fieldLine f entry.Data hn]

/-- Witness of the amended C2 at the record of the end-to-end scenario. -/
theorem createMessage_pre_block_witness :
    ([("path".toList, "/data".toList)] : List (GoString × GoString)) ≠ [] ∧
    countOcc "<pre>".toList
      (createMessage (fun v : GoString => v) ⟨"svc".toList, none, []⟩
        ⟨ErrorLevel, "disk full".toList, [("path".toList, "/data".toList)]⟩)
      = countOcc "<pre>".toList "svc".toList + countOcc "<pre>".toList "disk full".toList + 1 ∧
    splitLines
      (createMessage (fun v : GoString => v) ⟨"svc".toList, none, []⟩
        ⟨ErrorLevel, "disk full".toList, [("path".toList, "/data".toList)]⟩)
      = splitLines (header (⟨"svc".toList, none, []⟩ : TelegramHook)
            (⟨ErrorLevel, "disk full".toList, [("path".toList, "/data".toList)]⟩ :
              Entry GoString))
          ++ ["<pre>".toList]
          ++ ([("path".toList, "/data".toList)] : List (GoString × GoString)).map
              (fieldLine (fun v : GoString => v))
          ++ ["</pre>".toList] :=
  ⟨by decide,
   (createMessage_pre_block (fun v : GoString => v) ⟨"svc".toList, none, []⟩
      ⟨ErrorLevel, "disk full".toList, [("path".toList, "/data".toList)]⟩ (by decide)).2.1,
   ((createMessage_pre_block (fun v : GoString => v) ⟨"svc".toList, none, []⟩
      ⟨ErrorLevel, "disk full".toList, [("path".toList, "/data".toList)]⟩ (by decide)).2.2.2.2
      (by decide)).1⟩

theorem fieldBlock_append {V : Type} (f : V → GoString) (a b : List (GoString × V)) :
    fieldBlock f (a ++ b) = fieldBlock f a ++ fieldBlock f b := by
  simp only [fieldBlock, List.flatMap_append]

theorem htmlEscapeString_special (a b : GoString) (c : Char) :
    htmlEscapeString (a ++ c :: b)
      = htmlEscapeString a ++ htmlEscapeChar c ++ htmlEscapeString b := by
  rw [htmlEscapeString_append, htmlEscapeString, List.append_assoc]

theorem Fire_of_error {V : Type} (f : V → GoString)
    (get : Client → GoString → Except GoError Response) (hook : TelegramHook)
    (entry : Entry V) (err : GoError)
    (h : get ⟨some ⟨some ⟨60 * Second, 30 * Second⟩, 60 * Second⟩⟩
      (hook.apiEndpoint ++ createMessage f hook entry) = .error err) :
    Fire f get hook entry =
      { err := some err,
        stderr := "Unable to send message, ".toList ++ err.Error,
        requests := [(⟨some ⟨some ⟨60 * Second, 30 * Second⟩, 60 * Second⟩⟩,
          hook.apiEndpoint ++ createMessage f hook entry)],
        closed := [] } := by
  simp only [Fire, h]

theorem Fire_of_ok {V : Type} (f : V → GoString)
    (get : Client → GoString → Except GoError Response) (hook : TelegramHook)
    (entry : Entry V) (resp : Response)
    (h : get ⟨some ⟨some ⟨60 * Second, 30 * Second⟩, 60 * Second⟩⟩
      (hook.apiEndpoint ++ createMessage f hook entry) = .ok resp) :
    Fire f get hook entry =
      { err := none,
        stderr := [],
        requests := [(⟨some ⟨some ⟨60 * Second, 30 * Second⟩, 60 * Second⟩⟩,
          hook.apiEndpoint ++ createMessage f hook entry)],
        closed := [resp] } := by
  simp only [Fire, h]

theorem Fire_requests {V : Type} (f : V → GoString)
    (get : Client → GoString → Except GoError Response) (hook : TelegramHook)
    (entry : Entry V) :
    (Fire f get hook entry).requests
      = [(⟨some ⟨some ⟨60 * Second, 30 * Second⟩, 60 * Second⟩⟩,
          hook.apiEndpoint ++ createMessage f hook entry)] := by
  cases hg : get ⟨some ⟨some ⟨60 * Second, 30 * Second⟩, 60 * Second⟩⟩
      (hook.apiEndpoint ++ createMessage f hook entry) with
  | error e => rw [Fire_of_error f get hook entry e hg]
  | ok r => rw [Fire_of_ok f get hook entry r hg]

/-- C3: the text `createMessage` emits for a field `(key, value)` of a record is
`html.EscapeString` applied to tab, key, colon, space and the formatted value, and it
stands on a line of its own inside the `pre` block, after the texts of the fields
visited before it and before those visited after it.  Key and value are escaped
jointly, so the text is tab, escaped key, colon, space, escaped value; it holds no
raw `<`, `>` or double quote, and every `&` in it starts one of the five entities.
Escaping puts `&lt;` in the place of a `<` and `&amp;` in the place of a `&`. -/
theorem createMessage_field_line {V : Type} (f : V → GoString) (hook : TelegramHook)
    (entry : Entry V) (kv : GoString × V) (hkv : kv ∈ entry.Data) :
    fieldLine f kv = htmlEscapeString ("\t".toList ++ kv.1 ++ ": ".toList ++ f kv.2) ∧
    (∃ before after, entry.Data = before ++ kv :: after ∧
      createMessage f hook entry
        = header hook entry ++ "\n".toList ++ "<pre>".toList ++ fieldBlock f before
            ++ "\n".toList ++ fieldLine f kv ++ fieldBlock f after
            ++ "\n".toList ++ "</pre>".toList) ∧
    fieldLine f kv
      = "\t".toList ++ htmlEscapeString kv.1 ++ ": ".toList ++ htmlEscapeString (f kv.2) ∧
    '<' ∉ fieldLine f kv ∧ '>' ∉ fieldLine f kv ∧ Char.ofNat 34 ∉ fieldLine f kv ∧
    (∀ t, t <:+ fieldLine f kv → t.head? = some '&' → ∃ ent ∈ htmlEntities, ent <+: t) ∧
    (∀ a b, htmlEscapeString (a ++ '<' :: b)
      = htmlEscapeString a ++ "&lt;".toList ++ htmlEscapeString b) ∧
    (∀ a b, htmlEscapeString (a ++ '&' :: b)
      = htmlEscapeString a ++ "&amp;".toList ++ htmlEscapeString b) := by
  refine ⟨rfl, ?_, ?_, raw_not_mem_htmlEscapeString _ (Or.inl rfl) _,
    raw_not_mem_htmlEscapeString _ (Or.inr (Or.inl rfl)) _,
    raw_not_mem_htmlEscapeString _ (Or.inr (Or.inr (Or.inl rfl))) _,
    fun t ht hamp => amp_starts_entity _ t ht hamp,
    fun a b => htmlEscapeString_special a b '<', fun a b => htmlEscapeString_special a b '&'⟩
  · obtain ⟨before, after, hsplit⟩ := List.append_of_mem hkv
    refine ⟨before, after, hsplit, ?_⟩
    have hne : entry.Data ≠ [] := List.ne_nil_of_mem hkv
    rw [createMessage_cons f hook entry hne, hsplit, fieldBlock_append]
    simp only [fieldBlock, List.flatMap_cons, List.append_assoc]
    rfl
  · rw [fieldLine, htmlEscapeString_append, htmlEscapeString_append, htmlEscapeString_append]
    rfl

/-- Witness of C3: a field whose value holds `<` and `&`. -/
theorem createMessage_field_line_witness :
    (("k".toList, "a<b&c".toList) : GoString × GoString) ∈
        [("k".toList, "a<b&c".toList), ("path".toList, "/data".toList)] ∧
      fieldLine (fun v : GoString => v) ("k".toList, "a<b&c".toList)
        = "\t".toList ++ htmlEscapeString "k".toList ++ ": ".toList
            ++ htmlEscapeString "a<b&c".toList ∧
      '<' ∉ fieldLine (fun v : GoString => v) ("k".toList, "a<b&c".toList) :=
  ⟨by decide,
   (createMessage_field_line (fun v : GoString => v) ⟨"svc".toList, none, []⟩
      ⟨ErrorLevel, "disk full".toList,
        [("k".toList, "a<b&c".toList), ("path".toList, "/data".toList)]⟩
      ("k".toList, "a<b&c".toList) (by decide)).2.2.1,
   (createMessage_field_line (fun v : GoString => v) ⟨"svc".toList, none, []⟩
      ⟨ErrorLevel, "disk full".toList,
        [("k".toList, "a<b&c".toList), ("path".toList, "/data".toList)]⟩
      ("k".toList, "a<b&c".toList) (by decide)).2.2.2.1⟩

/-- C4: for every hook and record, `Fire` issues one GET, and its URL is the hook's
`apiEndpoint` followed by the text `createMessage` returns, with no encoding; for a
hook built by `NewTelegramHookWithClient` that is the endpoint template filled with
user, token and chat id, followed by the message.  For the identity `svc`, the
severity error, the message `disk full` and the field `path = /data` the URL is the
base URL followed by the header, the `pre` block and its single line. -/
theorem Fire_request_url {V : Type} (f : V → GoString)
    (get : Client → GoString → Except GoError Response) (hook : TelegramHook)
    (entry : Entry V) :
    (Fire f get hook entry).requests.map Prod.snd
      = [hook.apiEndpoint ++ createMessage f hook entry] ∧
    (∀ (appName username token chatID : GoString) (client : Option Client),
      (Fire f get (NewTelegramHookWithClient appName username token chatID client).1
          entry).requests.map Prod.snd
        = ["https://api.telegram.org/bot".toList ++ username ++ ":".toList ++ token
            ++ "/sendMessage?chat_id=".toList ++ chatID ++ "&text=".toList
            ++ createMessage f
                (NewTelegramHookWithClient appName username token chatID client).1 entry]) ∧
    (∀ (username token chatID : GoString) (client : Option Client),
      (Fire (fun v : GoString => v) get
          (NewTelegramHookWithClient "svc".toList username token chatID client).1
          ⟨ErrorLevel, "disk full".toList, [("path".toList, "/data".toList)]⟩).requests.map
            Prod.snd
        = ["https://api.telegram.org/bot".toList ++ username ++ ":".toList ++ token
            ++ "/sendMessage?chat_id=".toList ++ chatID ++ "&text=".toList
            ++ "ERROR@svc - disk full\n<pre>\n\tpath: /data\n</pre>".toList]) := by
  have key : ∀ {W : Type} (g : W → GoString) (hk : TelegramHook) (e : Entry W),
      (Fire g get hk e).requests.map Prod.snd = [hk.apiEndpoint ++ createMessage g hk e] := by
    intro W g hk e
    rw [Fire_requests]
    rfl
  refine ⟨key f hook entry, fun appName username token chatID client => ?_,
    fun username token chatID client => ?_⟩
  · rw [key]; rfl
  · rw [key]
    have hm : createMessage (fun v : GoString => v)
        (NewTelegramHookWithClient "svc".toList username token chatID client).1
        ⟨ErrorLevel, "disk full".toList, [("path".toList, "/data".toList)]⟩
        = "ERROR@svc - disk full\n<pre>\n\tpath: /data\n</pre>".toList := by
      rfl
    rw [hm]; rfl

/-- C5: `Fire` returns an error exactly when the GET returns one, and then it
returns that error and writes `Unable to send message, ` followed by the error's text
to standard error, closing nothing; for every response the GET returns, whatever its
status code, `Fire` returns no error, writes nothing to standard error and closes the
body of that response. -/
theorem Fire_error_iff {V : Type} (f : V → GoString)
    (get : Client → GoString → Except GoError Response) (hook : TelegramHook)
    (entry : Entry V) :
    ((Fire f get hook entry).err ≠ none ↔
      ∃ err, get ⟨some ⟨some ⟨60 * Second, 30 * Second⟩, 60 * Second⟩⟩
        (hook.apiEndpoint ++ createMessage f hook entry) = .error err) ∧
    (∀ err, get ⟨some ⟨some ⟨60 * Second, 30 * Second⟩, 60 * Second⟩⟩
        (hook.apiEndpoint ++ createMessage f hook entry) = .error err →
      (Fire f get hook entry).err = some err ∧
      (Fire f get hook entry).stderr = "Unable to send message, ".toList ++ err.Error ∧
      (Fire f get hook entry).closed = []) ∧
    (∀ resp, get ⟨some ⟨some ⟨60 * Second, 30 * Second⟩, 60 * Second⟩⟩
        (hook.apiEndpoint ++ createMessage f hook entry) = .ok resp →
      (Fire f get hook entry).err = none ∧
      (Fire f get hook entry).stderr = [] ∧
      (Fire f get hook entry).closed = [resp]) := by
  cases hg : get ⟨some ⟨some ⟨60 * Second, 30 * Second⟩, 60 * Second⟩⟩
      (hook.apiEndpoint ++ createMessage f hook entry) with
  | error e =>
    rw [Fire_of_error f get hook entry e hg]
    refine ⟨⟨fun _ => ⟨e, rfl⟩, fun _ => Option.some_ne_none e⟩, fun err he => ?_,
      fun resp he => ?_⟩
    · cases he
      exact ⟨rfl, rfl, rfl⟩
    · cases he
  | ok r =>
    rw [Fire_of_ok f get hook entry r hg]
    refine ⟨⟨fun h => absurd rfl h, fun h => ?_⟩, fun err he => ?_, fun resp he => ?_⟩
    · obtain ⟨err, he⟩ := h
      cases he
    · cases he
    · cases he
      exact ⟨rfl, rfl, rfl⟩

/-- Witness of C5: a connection that is refused, and an endpoint that answers with
the status 403. -/
theorem Fire_error_iff_witness :
    ((Fire (fun v : GoString => v) (fun _ _ => .error ⟨"connection refused".toList⟩)
        ⟨"svc".toList, none, "http://x/?text=".toList⟩
        ⟨ErrorLevel, "disk full".toList, []⟩).err = some ⟨"connection refused".toList⟩ ∧
      (Fire (fun v : GoString => v) (fun _ _ => .error ⟨"connection refused".toList⟩)
        ⟨"svc".toList, none, "http://x/?text=".toList⟩
        ⟨ErrorLevel, "disk full".toList, []⟩).stderr
          = "Unable to send message, ".toList ++ "connection refused".toList ∧
      (Fire (fun v : GoString => v) (fun _ _ => .error ⟨"connection refused".toList⟩)
        ⟨"svc".toList, none, "http://x/?text=".toList⟩
        ⟨ErrorLevel, "disk full".toList, []⟩).closed = []) ∧
    ((Fire (fun v : GoString => v) (fun _ _ => .ok ⟨403⟩)
        ⟨"svc".toList, none, "http://x/?text=".toList⟩
        ⟨ErrorLevel, "disk full".toList, []⟩).err = none ∧
      (Fire (fun v : GoString => v) (fun _ _ => .ok ⟨403⟩)
        ⟨"svc".toList, none, "http://x/?text=".toList⟩
        ⟨ErrorLevel, "disk full".toList, []⟩).stderr = [] ∧
      (Fire (fun v : GoString => v) (fun _ _ => .ok ⟨403⟩)
        ⟨"svc".toList, none, "http://x/?text=".toList⟩
        ⟨ErrorLevel, "disk full".toList, []⟩).closed = [⟨403⟩]) :=
  ⟨(Fire_error_iff (fun v : GoString => v) (fun _ _ => .error ⟨"connection refused".toList⟩)
      ⟨"svc".toList, none, "http://x/?text=".toList⟩
      ⟨ErrorLevel, "disk full".toList, []⟩).2.1 ⟨"connection refused".toList⟩ rfl,
   (Fire_error_iff (fun v : GoString => v) (fun _ _ => .ok ⟨403⟩)
      ⟨"svc".toList, none, "http://x/?text=".toList⟩
      ⟨ErrorLevel, "disk full".toList, []⟩).2.2 ⟨403⟩ rfl⟩

/-- C6: for every hook, the list `Levels` returns holds exactly the severities
panic, fatal and error: a severity is in it if and only if it is one of the three,
none of warn, info, debug and trace is in it, and it has three elements without a
duplicate. -/
theorem Levels_exact (hook : TelegramHook) :
    (∀ l : Level, l ∈ Levels hook ↔ l = PanicLevel ∨ l = FatalLevel ∨ l = ErrorLevel) ∧
    WarnLevel ∉ Levels hook ∧ InfoLevel ∉ Levels hook ∧ DebugLevel ∉ Levels hook ∧
    TraceLevel ∉ Levels hook ∧
    (Levels hook).Nodup ∧ (Levels hook).length = 3 := by
  unfold Levels
  refine ⟨fun l => ?_, by decide, by decide, by decide, by decide, by decide, rfl⟩
  simp only [ List.mem_cons, List.mem_singleton, List.not_mem_nil, or_false]
  constructor
  · rintro (h | h | h)
    · exact Or.inr (Or.inr h)
    · exact Or.inr (Or.inl h)
    · exact Or.inl h
  · rintro (h | h | h)
    · exact Or.inr (Or.inr h)
    · exact Or.inr (Or.inl h)
    · exact Or.inl h

/-- C7, as stated, fails: a record without fields whose message text holds a `pre`
block yields a string in which both `<pre>` and `</pre>` occur. -/
theorem message_text_holds_pre_without_fields :
    (([] : List (GoString × GoString)) = []) ∧
    "<pre>".toList <:+:
      createMessage (fun v : GoString => v) ⟨"svc".toList, none, []⟩
        ⟨ErrorLevel, "<pre>x</pre>".toList, []⟩ ∧
    "</pre>".toList <:+:
      createMessage (fun v : GoString => v) ⟨"svc".toList, none, []⟩
        ⟨ErrorLevel, "<pre>x</pre>".toList, []⟩ := by
  decide

/-- C7, amended: for every record whose field list is empty, `createMessage` returns
the header alone and appends no `pre` block; `<pre>` occurs in the output only if it
occurs in the application name or in the message text, and likewise `</pre>`. -/
theorem createMessage_no_fields {V : Type} (f : V → GoString) (hook : TelegramHook)
    (entry : Entry V) (h : entry.Data = []) :
    createMessage f hook entry = header hook entry ∧
    ("<pre>".toList <:+: createMessage f hook entry ↔
      "<pre>".toList <:+: hook.AppName ∨ "<pre>".toList <:+: entry.Message) ∧
    ("</pre>".toList <:+: createMessage f hook entry ↔
      "</pre>".toList <:+: hook.AppName ∨ "</pre>".toList <:+: entry.Message) := by
  have h1 := countOcc_header hook entry "pre>".toList (by decide) (by decide)
  have h2 := countOcc_header hook entry "/pre>".toList (by decide) (by decide)
  rw [createMessage_nil f hook entry h]
  refine ⟨rfl, ?_, ?_⟩
  · rw [← countOcc_pos_iff, ← countOcc_pos_iff, ← countOcc_pos_iff]
    change 0 < countOcc ('<' :: "pre>".toList) _ ↔
      0 < countOcc ('<' :: "pre>".toList) _ ∨ 0 < countOcc ('<' :: "pre>".toList) _
    rw [h1]; omega
  · rw [← countOcc_pos_iff, ← countOcc_pos_iff, ← countOcc_pos_iff]
    change 0 < countOcc ('<' :: "/pre>".toList) _ ↔
      0 < countOcc ('<' :: "/pre>".toList) _ ∨ 0 < countOcc ('<' :: "/pre>".toList) _
    rw [h2]; omega

/-- Witness of the amended C7: a record without fields. -/
theorem createMessage_no_fields_witness :
    (([] : List (GoString × GoString)) = []) ∧
    createMessage (fun v : GoString => v) ⟨"svc".toList, none, []⟩
        ⟨ErrorLevel, "disk full".toList, []⟩
      = header (⟨"svc".toList, none, []⟩ : TelegramHook)
          (⟨ErrorLevel, "disk full".toList, []⟩ : Entry GoString) :=
  ⟨rfl,
   (createMessage_no_fields (fun v : GoString => v) ⟨"svc".toList, none, []⟩
      ⟨ErrorLevel, "disk full".toList, []⟩ rfl).1⟩

/-- C8: for all strings and any client, `NewTelegramHookWithClient` returns a nil
error and a hook holding the application name, the given client and the endpoint
template filled with user name, token and chat id; `NewTelegramHook` returns what
`NewTelegramHookWithClient` returns for a default client, and never an error. -/
theorem NewTelegramHook_ok (appName username token chatID : GoString)
    (client : Option Client) :
    (NewTelegramHookWithClient appName username token chatID client).2 = none ∧
    (NewTelegramHookWithClient appName username token chatID client).1.AppName = appName ∧
    (NewTelegramHookWithClient appName username token chatID client).1.c = client ∧
    (NewTelegramHookWithClient appName username token chatID client).1.apiEndpoint
      = "https://api.telegram.org/bot".toList ++ username ++ ":".toList ++ token
          ++ "/sendMessage?chat_id=".toList ++ chatID ++ "&text=".toList ∧
    NewTelegramHook appName username token chatID
      = NewTelegramHookWithClient appName username token chatID (some ⟨none⟩) ∧
    (NewTelegramHook appName username token chatID).2 = none :=
  ⟨rfl, rfl, rfl, rfl, rfl, rfl⟩

/-- C9: for every hook, severity and message and any two field lists that are
permutations of each other, the two strings `createMessage` returns have the same
length and, split at newlines, the same lines up to their order; both begin with the
header and, when there are fields, with the header followed by the line `<pre>`, and
both then end with the line `</pre>`; without fields the two strings are equal.
With fields, each string is the header, the line `<pre>`, the texts of its own field
list in iteration order and the line `</pre>`, so the two differ only in the order of
the field texts: the field texts of one list are a permutation of those of the other,
and every line of the text of every field stands in both strings. -/
theorem createMessage_perm {V : Type} (f : V → GoString) (hook : TelegramHook)
    (level : Level) (message : GoString) (d1 d2 : List (GoString × V))
    (hperm : d1.Perm d2) :
    (createMessage f hook ⟨level, message, d1⟩).length
      = (createMessage f hook ⟨level, message, d2⟩).length ∧
    (splitLines (createMessage f hook ⟨level, message, d1⟩)).Perm
      (splitLines (createMessage f hook ⟨level, message, d2⟩)) ∧
    (levelLabel level ++ "@".toList ++ hook.AppName ++ " - ".toList ++ message
      <+: createMessage f hook ⟨level, message, d1⟩) ∧
    (levelLabel level ++ "@".toList ++ hook.AppName ++ " - ".toList ++ message
      <+: createMessage f hook ⟨level, message, d2⟩) ∧
    (d1 ≠ [] →
      (levelLabel level ++ "@".toList ++ hook.AppName ++ " - ".toList ++ message
          ++ "\n".toList ++ "<pre>".toList ++ "\n".toList
        <+: createMessage f hook ⟨level, message, d1⟩) ∧
      (levelLabel level ++ "@".toList ++ hook.AppName ++ " - ".toList ++ message
          ++ "\n".toList ++ "<pre>".toList ++ "\n".toList
        <+: createMessage f hook ⟨level, message, d2⟩) ∧
      (splitLines (createMessage f hook ⟨level, message, d1⟩)).getLast?
        = some "</pre>".toList ∧
      (splitLines (createMessage f hook ⟨level, message, d2⟩)).getLast?
        = some "</pre>".toList) ∧
    (d1 = [] →
      createMessage f hook ⟨level, message, d1⟩
        = createMessage f hook ⟨level, message, d2⟩) ∧
    (d1 ≠ [] →
      createMessage f hook ⟨level, message, d1⟩
        = levelLabel level ++ "@".toList ++ hook.AppName ++ " - ".toList ++ message
            ++ "\n".toList ++ "<pre>".toList ++ fieldBlock f d1
            ++ "\n".toList ++ "</pre>".toList ∧
      createMessage f hook ⟨level, message, d2⟩
        = levelLabel level ++ "@".toList ++ hook.AppName ++ " - ".toList ++ message
            ++ "\n".toList ++ "<pre>".toList ++ fieldBlock f d2
            ++ "\n".toList ++ "</pre>".toList ∧
      splitLines (createMessage f hook ⟨level, message, d1⟩)
        = splitLines (levelLabel level ++ "@".toList ++ hook.AppName ++ " - ".toList
              ++ message)
            ++ ["<pre>".toList] ++ d1.flatMap (fun kv => splitLines (fieldLine f kv))
            ++ ["</pre>".toList] ∧
      splitLines (createMessage f hook ⟨level, message, d2⟩)
        = splitLines (levelLabel level ++ "@".toList ++ hook.AppName ++ " - ".toList
              ++ message)
            ++ ["<pre>".toList] ++ d2.flatMap (fun kv => splitLines (fieldLine f kv))
            ++ ["</pre>".toList]) ∧
    (d1.map (fieldLine f)).Perm (d2.map (fieldLine f)) ∧
    (d1.flatMap (fun kv => splitLines (fieldLine f kv))).Perm
      (d2.flatMap (fun kv => splitLines (fieldLine f kv))) ∧
    (∀ kv ∈ d1, ∀ line ∈ splitLines (fieldLine f kv),
      line ∈ splitLines (createMessage f hook ⟨level, message, d1⟩) ∧
      line ∈ splitLines (createMessage f hook ⟨level, message, d2⟩)) := by
  have hblock : (fieldBlock f d1).Perm (fieldBlock f d2) :=
    List.Perm.flatMap_right _ hperm
  have hlines : (d1.flatMap (fun kv => splitLines (fieldLine f kv))).Perm
      (d2.flatMap (fun kv => splitLines (fieldLine f kv))) :=
    List.Perm.flatMap_right _ hperm
  have hnil : d1 = [] ↔ d2 = [] :=
    ⟨fun h => (h ▸ hperm).nil_eq.symm, fun h => (h ▸ hperm.symm).nil_eq.symm⟩
  have hstart : ∀ d : List (GoString × V), d ≠ [] →
      levelLabel level ++ "@".toList ++ hook.AppName ++ " - ".toList ++ message
          ++ "\n".toList ++ "<pre>".toList ++ "\n".toList
        <+: createMessage f hook ⟨level, message, d⟩ := by
    intro d hd
    rw [createMessage_cons f hook ⟨level, message, d⟩ hd]
    obtain ⟨x, xs, rfl⟩ := List.exists_cons_of_ne_nil hd
    refine ⟨fieldLine f x ++ fieldBlock f xs ++ "\n</pre>".toList, ?_⟩
    simp only [header, fieldBlock, List.flatMap_cons, List.append_assoc]
    rfl
  have hlast : ∀ d : List (GoString × V), d ≠ [] →
      (splitLines (createMessage f hook ⟨level, message, d⟩)).getLast?
        = some "</pre>".toList := by
    intro d hd
    rw [splitLines_createMessage f hook ⟨level, message, d⟩ hd, List.getLast?_append]
    rfl
  have hexact : ∀ d : List (GoString × V), d ≠ [] →
      createMessage f hook ⟨level, message, d⟩
        = levelLabel level ++ "@".toList ++ hook.AppName ++ " - ".toList ++ message
            ++ "\n".toList ++ "<pre>".toList ++ fieldBlock f d
            ++ "\n".toList ++ "</pre>".toList := by
    intro d hd
    rw [createMessage_cons f hook ⟨level, message, d⟩ hd]
    simp only [header, List.append_assoc]
    rfl
  have hsplit : ∀ d : List (GoString × V), d ≠ [] →
      splitLines (createMessage f hook ⟨level, message, d⟩)
        = splitLines (levelLabel level ++ "@".toList ++ hook.AppName ++ " - ".toList
              ++ message)
            ++ ["<pre>".toList] ++ d.flatMap (fun kv => splitLines (fieldLine f kv))
            ++ ["</pre>".toList] :=
    fun d hd => splitLines_createMessage f hook ⟨level, message, d⟩ hd
  have hmem : ∀ d : List (GoString × V), ∀ kv ∈ d, ∀ line ∈ splitLines (fieldLine f kv),
      line ∈ splitLines (createMessage f hook ⟨level, message, d⟩) := by
    intro d kv hkv line hline
    rw [hsplit d (List.ne_nil_of_mem hkv)]
    refine List.mem_append_left _ (List.mem_append_right _ ?_)
    exact List.mem_flatMap.mpr ⟨kv, hkv, hline⟩
  refine ⟨?_, ?_, createMessage_begins_with_header f hook ⟨level, message, d1⟩,
    createMessage_begins_with_header f hook ⟨level, message, d2⟩,
    fun h => ⟨hstart d1 h, hstart d2 (fun e => h (hnil.mpr e)), hlast d1 h,
      hlast d2 (fun e => h (hnil.mpr e))⟩, ?_,
    fun h => ⟨hexact d1 h, hexact d2 (fun e => h (hnil.mpr e)), hsplit d1 h,
      hsplit d2 (fun e => h (hnil.mpr e))⟩,
    hperm.map _, hlines,
    fun kv hkv line hline =>
      ⟨hmem d1 kv hkv line hline, hmem d2 kv (hperm.mem_iff.mp hkv) line hline⟩⟩
  · by_cases h : d1 = []
    · rw [createMessage_nil f hook ⟨level, message, d1⟩ h,
        createMessage_nil f hook ⟨level, message, d2⟩ (hnil.mp h)]
      rfl
    · rw [createMessage_cons f hook ⟨level, message, d1⟩ h,
        createMessage_cons f hook ⟨level, message, d2⟩ (fun e => h (hnil.mpr e))]
      simp only [List.length_append, hblock.length_eq]
      rfl
  · by_cases h : d1 = []
    · rw [createMessage_nil f hook ⟨level, message, d1⟩ h,
        createMessage_nil f hook ⟨level, message, d2⟩ (hnil.mp h)]
      exact List.Perm.refl _
    · rw [splitLines_createMessage f hook ⟨level, message, d1⟩ h,
        splitLines_createMessage f hook ⟨level, message, d2⟩ (fun e => h (hnil.mpr e))]
      exact List.Perm.append_right _ (List.Perm.append_left _ hlines)
  · intro h
    rw [createMessage_nil f hook ⟨level, message, d1⟩ h,
      createMessage_nil f hook ⟨level, message, d2⟩ (hnil.mp h)]
    rfl

/-- Witness of C9: two fields visited in the two possible orders; the line of the
field `a` stands in both strings, and each string holds the texts of its list in the
order of that list. -/
theorem createMessage_perm_witness :
    ([("a".toList, "1".toList), ("b".toList, "2".toList)] : List (GoString × GoString)).Perm
      [("b".toList, "2".toList), ("a".toList, "1".toList)] ∧
    (createMessage (fun v : GoString => v) ⟨"svc".toList, none, []⟩
        ⟨ErrorLevel, "disk full".toList,
          [("a".toList, "1".toList), ("b".toList, "2".toList)]⟩).length
      = (createMessage (fun v : GoString => v) ⟨"svc".toList, none, []⟩
        ⟨ErrorLevel, "disk full".toList,
          [("b".toList, "2".toList), ("a".toList, "1".toList)]⟩).length ∧
    (splitLines (createMessage (fun v : GoString => v) ⟨"svc".toList, none, []⟩
        ⟨ErrorLevel, "disk full".toList,
          [("a".toList, "1".toList), ("b".toList, "2".toList)]⟩)).Perm
      (splitLines (createMessage (fun v : GoString => v) ⟨"svc".toList, none, []⟩
        ⟨ErrorLevel, "disk full".toList,
          [("b".toList, "2".toList), ("a".toList, "1".toList)]⟩)) ∧
    ("\ta: 1".toList ∈
        splitLines (createMessage (fun v : GoString => v) ⟨"svc".toList, none, []⟩
          ⟨ErrorLevel, "disk full".toList,
            [("a".toList, "1".toList), ("b".toList, "2".toList)]⟩) ∧
      "\ta: 1".toList ∈
        splitLines (createMessage (fun v : GoString => v) ⟨"svc".toList, none, []⟩
          ⟨ErrorLevel, "disk full".toList,
            [("b".toList, "2".toList), ("a".toList, "1".toList)]⟩)) ∧
    createMessage (fun v : GoString => v) ⟨"svc".toList, none, []⟩
        ⟨ErrorLevel, "disk full".toList,
          [("a".toList, "1".toList), ("b".toList, "2".toList)]⟩
      = "ERROR@svc - disk full\n<pre>\n\ta: 1\n\tb: 2\n</pre>".toList ∧
    createMessage (fun v : GoString => v) ⟨"svc".toList, none, []⟩
        ⟨ErrorLevel, "disk full".toList,
          [("b".toList, "2".toList), ("a".toList, "1".toList)]⟩
      = "ERROR@svc - disk full\n<pre>\n\tb: 2\n\ta: 1\n</pre>".toList :=
  ⟨List.Perm.swap _ _ _,
   (createMessage_perm (fun v : GoString => v) ⟨"svc".toList, none, []⟩ ErrorLevel
      "disk full".toList [("a".toList, "1".toList), ("b".toList, "2".toList)]
      [("b".toList, "2".toList), ("a".toList, "1".toList)] (List.Perm.swap _ _ _)).1,
   (createMessage_perm (fun v : GoString => v) ⟨"svc".toList, none, []⟩ ErrorLevel
      "disk full".toList [("a".toList, "1".toList), ("b".toList, "2".toList)]
      [("b".toList, "2".toList), ("a".toList, "1".toList)] (List.Perm.swap _ _ _)).2.1,
   (createMessage_perm (fun v : GoString => v) ⟨"svc".toList, none, []⟩ ErrorLevel
      "disk full".toList [("a".toList, "1".toList), ("b".toList, "2".toList)]
      [("b".toList, "2".toList), ("a".toList, "1".toList)]
      (List.Perm.swap _ _ _)).2.2.2.2.2.2.2.2.2
      ("a".toList, "1".toList) (by decide) "\ta: 1".toList (by decide),
   (createMessage_perm (fun v : GoString => v) ⟨"svc".toList, none, []⟩ ErrorLevel
      "disk full".toList [("a".toList, "1".toList), ("b".toList, "2".toList)]
      [("b".toList, "2".toList), ("a".toList, "1".toList)]
      (List.Perm.swap _ _ _)).2.2.2.2.2.2.1 (by decide) |>.1,
   (createMessage_perm (fun v : GoString => v) ⟨"svc".toList, none, []⟩ ErrorLevel
      "disk full".toList [("a".toList, "1".toList), ("b".toList, "2".toList)]
      [("b".toList, "2".toList), ("a".toList, "1".toList)]
      (List.Perm.swap _ _ _)).2.2.2.2.2.2.1 (by decide) |>.2.1⟩

/-- C10: `Fire` does not read the client stored in the hook.  Two hooks with the same
application name and the same endpoint behave alike on every record, whatever clients
they hold: the same single request, to the same URL, through a client built in the
call whose transport has the dial timeout 60 s, the keep-alive 30 s and the TLS
handshake timeout 60 s, and the same result.  The client given to
`NewTelegramHookWithClient` is stored in the hook and changes nothing in `Fire`. -/
theorem Fire_ignores_client {V : Type} (f : V → GoString)
    (get : Client → GoString → Except GoError Response) (h1 h2 : TelegramHook)
    (entry : Entry V) (hApp : h1.AppName = h2.AppName)
    (hEnd : h1.apiEndpoint = h2.apiEndpoint) :
    Fire f get h1 entry = Fire f get h2 entry ∧
    (Fire f get h1 entry).requests
      = [(⟨some ⟨some ⟨60 * Second, 30 * Second⟩, 60 * Second⟩⟩,
          h1.apiEndpoint ++ createMessage f h1 entry)] ∧
    (Fire f get h2 entry).requests
      = [(⟨some ⟨some ⟨60 * Second, 30 * Second⟩, 60 * Second⟩⟩,
          h1.apiEndpoint ++ createMessage f h1 entry)] ∧
    (∀ (appName username token chatID : GoString) (c1 c2 : Option Client),
      (NewTelegramHookWithClient appName username token chatID c1).1.c = c1 ∧
      Fire f get (NewTelegramHookWithClient appName username token chatID c1).1 entry
        = Fire f get (NewTelegramHookWithClient appName username token chatID c2).1 entry) := by
  have key : ∀ a b : TelegramHook, a.AppName = b.AppName → a.apiEndpoint = b.apiEndpoint →
      Fire f get a entry = Fire f get b entry := by
    intro a b hA hE
    have hm : createMessage f a entry = createMessage f b entry := by
      simp only [createMessage, hA]
    simp only [Fire, hm, hE]
  have e := key h1 h2 hApp hEnd
  refine ⟨e, Fire_requests f get h1 entry, ?_, fun appName username token chatID c1 c2 =>
    ⟨rfl, key _ _ rfl rfl⟩⟩
  rw [← e]
  exact Fire_requests f get h1 entry

/-- Witness of C10: a hook without a client and a hook holding a client with a
transport of its own. -/
theorem Fire_ignores_client_witness :
    Fire (fun v : GoString => v) (fun _ _ => .ok ⟨200⟩)
        ⟨"svc".toList, none, "http://x/?text=".toList⟩
        ⟨ErrorLevel, "disk full".toList, [("path".toList, "/data".toList)]⟩
      = Fire (fun v : GoString => v) (fun _ _ => .ok ⟨200⟩)
        ⟨"svc".toList, some ⟨some ⟨none, 1⟩⟩, "http://x/?text=".toList⟩
        ⟨ErrorLevel, "disk full".toList, [("path".toList, "/data".toList)]⟩ :=
  (Fire_ignores_client (fun v : GoString => v) (fun _ _ => .ok ⟨200⟩)
      ⟨"svc".toList, none, "http://x/?text=".toList⟩
      ⟨"svc".toList, some ⟨some ⟨none, 1⟩⟩, "http://x/?text=".toList⟩
      ⟨ErrorLevel, "disk full".toList, [("path".toList, "/data".toList)]⟩ rfl rfl).1

end Logging
